import Mathlib

/-!
Shallow embedding of `src/frontend/src/lib/pathConverter.ts` (the SVG path →
CSS clip-path converter core) and proofs about it.

Numbers are embedded as exact rationals (`ℚ`): the TypeScript source computes
with IEEE doubles, but every claim under study concerns exact values, so the
embedding uses exact arithmetic.  The elliptical-arc flattener
(`approximateArc`) uses trigonometric functions and is embedded separately
over `ℝ`; the interpreter takes the arc flattener as a function parameter
(`arcFn`), which is sound because the source's `approximateArc` is a total
function that never throws.

JavaScript-runtime behaviour that the source relies on (`String.trim`,
`parseFloat`, `Math.round`, `Number#toString`, `Math.atan2`) is modelled by
the `js`-prefixed definitions below, faithful to ECMAScript semantics on the
inputs the source can produce.
-/

namespace SvgClip

/-- A 2-D point with rational coordinates (`{x, y}` in the source). -/
structure Pt where
  x : ℚ
  y : ℚ
deriving DecidableEq

/-- A 2-D point with real coordinates, for the arc flattener. -/
structure PtR where
  x : ℝ
  y : ℝ

/-- Token type of `tokenizePath`: a command letter or a numeric literal. -/
inductive Token where
  | command (c : Char)
  | number (v : ℚ)
deriving DecidableEq

deriving instance DecidableEq for Except

/-- Result of running a piece of JavaScript: normal return, a thrown
`Error` message, or divergence (an infinite loop; surfaced here as
exhaustion of the step fuel). -/
inductive JsResult (α : Type) where
  | done (a : α)
  | thrown (msg : String)
  | hung
deriving DecidableEq

/-- Whitespace removed by JavaScript `String.prototype.trim` (ASCII part). -/
def isJsWhitespace (c : Char) : Bool :=
  c = ' ' || c = '\t' || c = '\n' || c = '\r' || c = '\x0b' || c = '\x0c'

/-- JavaScript `String.prototype.trim` on a character list. -/
def jsTrim (s : List Char) : List Char :=
  ((s.dropWhile isJsWhitespace).reverse.dropWhile isJsWhitespace).reverse

/-- The SVG path command letters (the class `[MmLlHhVvCcSsQqTtAaZz]`). -/
def isCommandLetter (c : Char) : Bool :=
  (['M', 'm', 'L', 'l', 'H', 'h', 'V', 'v', 'C', 'c', 'S', 's',
    'Q', 'q', 'T', 't', 'A', 'a', 'Z', 'z'] : List Char).contains c

/-- `isValidSvgPath`: the regex `/[MmLlHhVvCcSsQqTtAaZz]/.test(path)`,
i.e. some character of `path` is a command letter. -/
def isValidSvgPath (path : List Char) : Bool :=
  path.any isCommandLetter

/-- `convertSvgPathToClipPath`: validates and embeds the trimmed text in a
`clip-path: path('...');` declaration. -/
def convertSvgPathToClipPath (svgPath : List Char) : Except String String :=
  if svgPath = [] ∨ jsTrim svgPath = [] then
    .error "SVG path cannot be empty"
  else if ¬ isValidSvgPath (jsTrim svgPath) then
    .error "Invalid SVG path format"
  else
    .ok ("clip-path: path('" ++ String.mk (jsTrim svgPath) ++ "');")

/-! ## Tokenizer -/

/-- Characters skipped as separators by `tokenizePath`. -/
def isSeparator (c : Char) : Bool :=
  c = ' ' || c = '\t' || c = '\n' || c = '\r' || c = ','

/-- Characters that may start a numeric literal (`/[0-9+\-.]/`). -/
def isNumberStart (c : Char) : Bool :=
  c.isDigit || c = '+' || c = '-' || c = '.'

/-- The value of a string of decimal digits. -/
def digitsVal (ds : List Char) : ℕ :=
  ds.foldl (fun a c => 10 * a + (c.toNat - '0'.toNat)) 0

/-- JavaScript `parseFloat` on the literal shapes the tokenizer's scanner can
produce (optional sign, digits, at most one dot, at most one exponent part):
parses the longest valid prefix, `none` for `NaN`. -/
def jsParseFloat (s : List Char) : Option ℚ :=
  let sgn : ℚ × List Char :=
    match s with
    | '+' :: r => (1, r)
    | '-' :: r => (-1, r)
    | r => (1, r)
  let intDigits := sgn.2.takeWhile Char.isDigit
  let s2 := sgn.2.dropWhile Char.isDigit
  let frac : List Char × List Char :=
    match s2 with
    | '.' :: r => (r.takeWhile Char.isDigit, r.dropWhile Char.isDigit)
    | r => ([], r)
  if intDigits = [] ∧ frac.1 = [] then none
  else
    let mantissa : ℚ :=
      (digitsVal intDigits : ℚ) + (digitsVal frac.1 : ℚ) / (10 : ℚ) ^ frac.1.length
    let expVal : ℤ :=
      match frac.2 with
      | e :: r =>
        if e = 'e' ∨ e = 'E' then
          let esgn : ℤ × List Char :=
            match r with
            | '+' :: rr => (1, rr)
            | '-' :: rr => (-1, rr)
            | rr => (1, rr)
          let eds := esgn.2.takeWhile Char.isDigit
          if eds = [] then 0 else esgn.1 * (digitsVal eds : ℤ)
        else 0
      | [] => 0
    some (sgn.1 * mantissa * (10 : ℚ) ^ expVal)

/-- The tokenizer's rejection test on a scanned literal: `numStr` empty, a
bare sign or dot or sign-dot, or ending in an exponent marker
(`/[eE]$/`). -/
def badNumStr (ns : List Char) : Bool :=
  ns = [] || ns = ['.'] || ns = ['-'] || ns = ['+'] || ns = ['-', '.'] || ns = ['+', '.']
    || ns.getLast? = some 'e' || ns.getLast? = some 'E'

/-- State of an in-progress numeric-literal scan: the accumulated `numStr`
and the `hasDecimal` / `hasExponent` flags of the source's scanning loop.
`justExp` records that the previous character was the exponent marker, so
that an immediately following sign is consumed (the source consumes that
sign inside the same loop iteration as the marker). -/
structure NumScan where
  acc : List Char
  hasDec : Bool
  hasExp : Bool
  justExp : Bool
deriving DecidableEq

/-- One step of the numeric scanning loop: `some` extends the literal with
`c`, `none` means the literal ends before `c` (the loop's `break`). -/
def scanStep (sc : NumScan) (c : Char) : Option NumScan :=
  if sc.justExp && (c = '+' || c = '-') then
    some ⟨sc.acc ++ [c], sc.hasDec, sc.hasExp, false⟩
  else if c.isDigit then
    some ⟨sc.acc ++ [c], sc.hasDec, sc.hasExp, false⟩
  else if c = '.' && !sc.hasDec && !sc.hasExp then
    some ⟨sc.acc ++ [c], true, sc.hasExp, false⟩
  else if (c = 'e' || c = 'E') && !sc.hasExp && !sc.acc.isEmpty then
    some ⟨sc.acc ++ [c], sc.hasDec, true, true⟩
  else
    none

/-- Open a numeric scan at its first character (a sign, digit or dot). -/
def startScan (c : Char) : NumScan :=
  if c = '+' || c = '-' then ⟨[c], false, false, false⟩
  else if c = '.' then ⟨[c], true, false, false⟩
  else ⟨[c], false, false, false⟩

/-- Message of the tokenizer's unknown-character throw. -/
def unexpectedCharMsg (c : Char) (i : ℕ) : String :=
  "Unexpected character \"" ++ String.mk [c] ++ "\" at position " ++ toString i

/-- Finish a scanned literal: validate it, convert it, and prepend the token
to the tokens produced by the rest of the input. -/
def finishNumber (acc : List Char) (k : Except String (List Token)) :
    Except String (List Token) :=
  if badNumStr acc then
    .error ("Invalid number format: \"" ++ String.mk acc ++ "\"")
  else
    match jsParseFloat acc with
    | none => .error ("Invalid numeric value: \"" ++ String.mk acc ++ "\"")
    | some v => k.map (Token.number v :: ·)

/-- `tokenizePath`'s main loop, one character per step.  `i` is the index of
the next character; a `some` scan state means a numeric literal is being
scanned (the source's inner `while`; restructured here to consume exactly
one character per step, which is equivalent because the inner loop examines
one character per iteration and re-examines the breaking character in the
outer loop). -/
def tokenizeAux : List Char → ℕ → Option NumScan → Except String (List Token)
  | [], _, none => .ok []
  | [], _, some sc => finishNumber sc.acc (.ok [])
  | c :: rest, i, none =>
    if isSeparator c then
      tokenizeAux rest (i + 1) none
    else if isCommandLetter c then
      (tokenizeAux rest (i + 1) none).map (Token.command c :: ·)
    else if isNumberStart c then
      tokenizeAux rest (i + 1) (some (startScan c))
    else
      .error (unexpectedCharMsg c i)
  | c :: rest, i, some sc =>
    match scanStep sc c with
    | some sc2 => tokenizeAux rest (i + 1) (some sc2)
    | none =>
      finishNumber sc.acc
        (if isSeparator c then
          tokenizeAux rest (i + 1) none
        else if isCommandLetter c then
          (tokenizeAux rest (i + 1) none).map (Token.command c :: ·)
        else if isNumberStart c then
          tokenizeAux rest (i + 1) (some (startScan c))
        else
          .error (unexpectedCharMsg c i))

/-- `tokenizePath`: raw path text to command/number tokens. -/
def tokenizePath (path : List Char) : Except String (List Token) :=
  tokenizeAux path 0 none

/-- `PolygonConversionOptions`: flattening density, with the source's `??`
defaults applied (`curveSegments ?? 8`, `arcSegments ?? 16`). -/
structure PolygonConversionOptions where
  curveSegments : ℕ := 8
  arcSegments : ℕ := 16
deriving DecidableEq

/-! ## Curve flattening (rational part) -/

/-- `cubicBezier`: standard parametric evaluation of a cubic Bézier curve. -/
def cubicBezier (x0 y0 x1 y1 x2 y2 x3 y3 t : ℚ) : Pt :=
  let mt := 1 - t
  let mt2 := mt * mt
  let mt3 := mt2 * mt
  let t2 := t * t
  let t3 := t2 * t
  ⟨mt3 * x0 + 3 * mt2 * t * x1 + 3 * mt * t2 * x2 + t3 * x3,
   mt3 * y0 + 3 * mt2 * t * y1 + 3 * mt * t2 * y2 + t3 * y3⟩

/-- `quadraticBezier`: standard parametric evaluation of a quadratic Bézier. -/
def quadraticBezier (x0 y0 x1 y1 x2 y2 t : ℚ) : Pt :=
  let mt := 1 - t
  let mt2 := mt * mt
  let t2 := t * t
  ⟨mt2 * x0 + 2 * mt * t * x1 + t2 * x2,
   mt2 * y0 + 2 * mt * t * y1 + t2 * y2⟩

/-- The source's cubic flattening loop
(`for t = 1; t <= curveSegments; t++` sampling at `ratio = t/curveSegments`). -/
def flattenCubic (x0 y0 x1 y1 x2 y2 x3 y3 : ℚ) (curveSegments : ℕ) : List Pt :=
  (List.range curveSegments).map
    (fun k : ℕ => cubicBezier x0 y0 x1 y1 x2 y2 x3 y3 (((k : ℚ) + 1) / (curveSegments : ℚ)))

/-- The source's quadratic flattening loop. -/
def flattenQuadratic (x0 y0 x1 y1 x2 y2 : ℚ) (curveSegments : ℕ) : List Pt :=
  (List.range curveSegments).map
    (fun k : ℕ => quadraticBezier x0 y0 x1 y1 x2 y2 (((k : ℚ) + 1) / (curveSegments : ℚ)))

/-! ## Path interpreter -/

/-- The mutable interpreter locals of `extractPointsFromPath`.
`lastCommand` is a string, initially `""`, holding the single letter of the
most recently executed command. -/
structure InterpState where
  currentX : ℚ
  currentY : ℚ
  subpathStartX : ℚ
  subpathStartY : ℚ
  lastControlX : ℚ
  lastControlY : ℚ
  lastCommand : String
deriving DecidableEq

/-- Interpreter start state: everything at the origin, no last command. -/
def initState : InterpState := ⟨0, 0, 0, 0, 0, 0, ""⟩

/-- The arguments the interpreter's `A`/`a` cases pass to `approximateArc`. -/
structure ArcCall where
  x1 : ℚ
  y1 : ℚ
  rx : ℚ
  ry : ℚ
  xAxisRotation : ℚ
  largeArcFlag : Bool
  sweepFlag : Bool
  x2 : ℚ
  y2 : ℚ
  segments : ℕ
deriving DecidableEq

/-- An arc flattener usable from the rational interpreter, standing in for
the real-valued `approximateArc` (total, never throws); used to instantiate
`arcFn` in computations on inputs that contain no arc command, where it is
never invoked. -/
def trivialArc : ArcCall → List Pt := fun a => [⟨a.x2, a.y2⟩]

/-- `getNumber` helper of `extractPointsFromPath`: pop one number token or
throw `Expected number for <context>`. -/
def getNumber (tokens : List Token) (context : String) : Except String (ℚ × List Token) :=
  match tokens with
  | Token.number v :: rest => .ok (v, rest)
  | _ => .error ("Expected number for " ++ context)

/-- The source's reflection test for smooth cubic commands:
`lastCommand === 'C' || 'c' || 'S' || 's'`. -/
def isCubicCmd (s : String) : Bool := s = "C" || s = "c" || s = "S" || s = "s"

/-- The source's reflection test for smooth quadratic commands:
`lastCommand === 'Q' || 'q' || 'T' || 't'`. -/
def isQuadCmd (s : String) : Bool := s = "Q" || s = "q" || s = "T" || s = "t"

/-- One iteration of the `switch (command)` body: consumes the command's
operands from `tokens`, returns the emitted points, the updated state (not
including the post-switch `lastCommand` assignment, which the group loop
performs) and the remaining tokens; errors are the `getNumber` /
unsupported-command throws. -/
def execCommand (arcFn : ArcCall → List Pt) (curveSegments arcSegments : ℕ)
    (command : Char) (isFirstCoordSet : Bool) (tokens : List Token) (st : InterpState) :
    Except String (List Pt × InterpState × List Token) :=
  match command with
  | 'M' =>
    match getNumber tokens "M command x-coordinate" with
    | .error m => .error m
    | .ok (x, t1) =>
    match getNumber t1 "M command y-coordinate" with
    | .error m => .error m
    | .ok (y, t2) =>
      .ok ([⟨x, y⟩],
        { st with
          currentX := x
          currentY := y
          subpathStartX := if isFirstCoordSet then x else st.subpathStartX
          subpathStartY := if isFirstCoordSet then y else st.subpathStartY }, t2)
  | 'm' =>
    match getNumber tokens "m command x-coordinate" with
    | .error m => .error m
    | .ok (dx, t1) =>
    match getNumber t1 "m command y-coordinate" with
    | .error m => .error m
    | .ok (dy, t2) =>
      let x := st.currentX + dx
      let y := st.currentY + dy
      .ok ([⟨x, y⟩],
        { st with
          currentX := x
          currentY := y
          subpathStartX := if isFirstCoordSet then x else st.subpathStartX
          subpathStartY := if isFirstCoordSet then y else st.subpathStartY }, t2)
  | 'L' =>
    match getNumber tokens "L command x-coordinate" with
    | .error m => .error m
    | .ok (x, t1) =>
    match getNumber t1 "L command y-coordinate" with
    | .error m => .error m
    | .ok (y, t2) =>
      .ok ([⟨x, y⟩], { st with currentX := x, currentY := y }, t2)
  | 'l' =>
    match getNumber tokens "l command x-coordinate" with
    | .error m => .error m
    | .ok (dx, t1) =>
    match getNumber t1 "l command y-coordinate" with
    | .error m => .error m
    | .ok (dy, t2) =>
      let x := st.currentX + dx
      let y := st.currentY + dy
      .ok ([⟨x, y⟩], { st with currentX := x, currentY := y }, t2)
  | 'H' =>
    match getNumber tokens "H command x-coordinate" with
    | .error m => .error m
    | .ok (x, t1) =>
      .ok ([⟨x, st.currentY⟩], { st with currentX := x }, t1)
  | 'h' =>
    match getNumber tokens "h command x-coordinate" with
    | .error m => .error m
    | .ok (dx, t1) =>
      let x := st.currentX + dx
      .ok ([⟨x, st.currentY⟩], { st with currentX := x }, t1)
  | 'V' =>
    match getNumber tokens "V command y-coordinate" with
    | .error m => .error m
    | .ok (y, t1) =>
      .ok ([⟨st.currentX, y⟩], { st with currentY := y }, t1)
  | 'v' =>
    match getNumber tokens "v command y-coordinate" with
    | .error m => .error m
    | .ok (dy, t1) =>
      let y := st.currentY + dy
      .ok ([⟨st.currentX, y⟩], { st with currentY := y }, t1)
  | 'C' =>
    match getNumber tokens "C command control point 1 x" with
    | .error m => .error m
    | .ok (x1, t1) =>
    match getNumber t1 "C command control point 1 y" with
    | .error m => .error m
    | .ok (y1, t2) =>
    match getNumber t2 "C command control point 2 x" with
    | .error m => .error m
    | .ok (x2, t3) =>
    match getNumber t3 "C command control point 2 y" with
    | .error m => .error m
    | .ok (y2, t4) =>
    match getNumber t4 "C command end x" with
    | .error m => .error m
    | .ok (x, t5) =>
    match getNumber t5 "C command end y" with
    | .error m => .error m
    | .ok (y, t6) =>
      .ok (flattenCubic st.currentX st.currentY x1 y1 x2 y2 x y curveSegments,
        { st with lastControlX := x2, lastControlY := y2, currentX := x, currentY := y }, t6)
  | 'c' =>
    match getNumber tokens "c command control point 1 x" with
    | .error m => .error m
    | .ok (dx1, t1) =>
    match getNumber t1 "c command control point 1 y" with
    | .error m => .error m
    | .ok (dy1, t2) =>
    match getNumber t2 "c command control point 2 x" with
    | .error m => .error m
    | .ok (dx2, t3) =>
    match getNumber t3 "c command control point 2 y" with
    | .error m => .error m
    | .ok (dy2, t4) =>
    match getNumber t4 "c command end x" with
    | .error m => .error m
    | .ok (dx, t5) =>
    match getNumber t5 "c command end y" with
    | .error m => .error m
    | .ok (dy, t6) =>
      let x1 := st.currentX + dx1
      let y1 := st.currentY + dy1
      let x2 := st.currentX + dx2
      let y2 := st.currentY + dy2
      let x := st.currentX + dx
      let y := st.currentY + dy
      .ok (flattenCubic st.currentX st.currentY x1 y1 x2 y2 x y curveSegments,
        { st with lastControlX := x2, lastControlY := y2, currentX := x, currentY := y }, t6)
  | 'S' =>
    match getNumber tokens "S command control point 2 x" with
    | .error m => .error m
    | .ok (x2, t1) =>
    match getNumber t1 "S command control point 2 y" with
    | .error m => .error m
    | .ok (y2, t2) =>
    match getNumber t2 "S command end x" with
    | .error m => .error m
    | .ok (x, t3) =>
    match getNumber t3 "S command end y" with
    | .error m => .error m
    | .ok (y, t4) =>
      let x1 := if isCubicCmd st.lastCommand then 2 * st.currentX - st.lastControlX else st.currentX
      let y1 := if isCubicCmd st.lastCommand then 2 * st.currentY - st.lastControlY else st.currentY
      .ok (flattenCubic st.currentX st.currentY x1 y1 x2 y2 x y curveSegments,
        { st with lastControlX := x2, lastControlY := y2, currentX := x, currentY := y }, t4)
  | 's' =>
    match getNumber tokens "s command control point 2 x" with
    | .error m => .error m
    | .ok (dx2, t1) =>
    match getNumber t1 "s command control point 2 y" with
    | .error m => .error m
    | .ok (dy2, t2) =>
    match getNumber t2 "s command end x" with
    | .error m => .error m
    | .ok (dx, t3) =>
    match getNumber t3 "s command end y" with
    | .error m => .error m
    | .ok (dy, t4) =>
      let x1 := if isCubicCmd st.lastCommand then 2 * st.currentX - st.lastControlX else st.currentX
      let y1 := if isCubicCmd st.lastCommand then 2 * st.currentY - st.lastControlY else st.currentY
      let x2 := st.currentX + dx2
      let y2 := st.currentY + dy2
      let x := st.currentX + dx
      let y := st.currentY + dy
      .ok (flattenCubic st.currentX st.currentY x1 y1 x2 y2 x y curveSegments,
        { st with lastControlX := x2, lastControlY := y2, currentX := x, currentY := y }, t4)
  | 'Q' =>
    match getNumber tokens "Q command control point x" with
    | .error m => .error m
    | .ok (x1, t1) =>
    match getNumber t1 "Q command control point y" with
    | .error m => .error m
    | .ok (y1, t2) =>
    match getNumber t2 "Q command end x" with
    | .error m => .error m
    | .ok (x, t3) =>
    match getNumber t3 "Q command end y" with
    | .error m => .error m
    | .ok (y, t4) =>
      .ok (flattenQuadratic st.currentX st.currentY x1 y1 x y curveSegments,
        { st with lastControlX := x1, lastControlY := y1, currentX := x, currentY := y }, t4)
  | 'q' =>
    match getNumber tokens "q command control point x" with
    | .error m => .error m
    | .ok (dx1, t1) =>
    match getNumber t1 "q command control point y" with
    | .error m => .error m
    | .ok (dy1, t2) =>
    match getNumber t2 "q command end x" with
    | .error m => .error m
    | .ok (dx, t3) =>
    match getNumber t3 "q command end y" with
    | .error m => .error m
    | .ok (dy, t4) =>
      let x1 := st.currentX + dx1
      let y1 := st.currentY + dy1
      let x := st.currentX + dx
      let y := st.currentY + dy
      .ok (flattenQuadratic st.currentX st.currentY x1 y1 x y curveSegments,
        { st with lastControlX := x1, lastControlY := y1, currentX := x, currentY := y }, t4)
  | 'T' =>
    match getNumber tokens "T command end x" with
    | .error m => .error m
    | .ok (x, t1) =>
    match getNumber t1 "T command end y" with
    | .error m => .error m
    | .ok (y, t2) =>
      let x1 := if isQuadCmd st.lastCommand then 2 * st.currentX - st.lastControlX else st.currentX
      let y1 := if isQuadCmd st.lastCommand then 2 * st.currentY - st.lastControlY else st.currentY
      .ok (flattenQuadratic st.currentX st.currentY x1 y1 x y curveSegments,
        { st with lastControlX := x1, lastControlY := y1, currentX := x, currentY := y }, t2)
  | 't' =>
    match getNumber tokens "t command end x" with
    | .error m => .error m
    | .ok (dx, t1) =>
    match getNumber t1 "t command end y" with
    | .error m => .error m
    | .ok (dy, t2) =>
      let x1 := if isQuadCmd st.lastCommand then 2 * st.currentX - st.lastControlX else st.currentX
      let y1 := if isQuadCmd st.lastCommand then 2 * st.currentY - st.lastControlY else st.currentY
      let x := st.currentX + dx
      let y := st.currentY + dy
      .ok (flattenQuadratic st.currentX st.currentY x1 y1 x y curveSegments,
        { st with lastControlX := x1, lastControlY := y1, currentX := x, currentY := y }, t2)
  | 'A' =>
    match getNumber tokens "A command rx" with
    | .error m => .error m
    | .ok (rx, t1) =>
    match getNumber t1 "A command ry" with
    | .error m => .error m
    | .ok (ry, t2) =>
    match getNumber t2 "A command x-axis-rotation" with
    | .error m => .error m
    | .ok (xAxisRotation, t3) =>
    match getNumber t3 "A command large-arc-flag" with
    | .error m => .error m
    | .ok (largeArcFlag, t4) =>
    match getNumber t4 "A command sweep-flag" with
    | .error m => .error m
    | .ok (sweepFlag, t5) =>
    match getNumber t5 "A command end x" with
    | .error m => .error m
    | .ok (x, t6) =>
    match getNumber t6 "A command end y" with
    | .error m => .error m
    | .ok (y, t7) =>
      .ok (arcFn ⟨st.currentX, st.currentY, rx, ry, xAxisRotation,
            decide (largeArcFlag ≠ 0), decide (sweepFlag ≠ 0), x, y, arcSegments⟩,
        { st with currentX := x, currentY := y }, t7)
  | 'a' =>
    match getNumber tokens "a command rx" with
    | .error m => .error m
    | .ok (rx, t1) =>
    match getNumber t1 "a command ry" with
    | .error m => .error m
    | .ok (ry, t2) =>
    match getNumber t2 "a command x-axis-rotation" with
    | .error m => .error m
    | .ok (xAxisRotation, t3) =>
    match getNumber t3 "a command large-arc-flag" with
    | .error m => .error m
    | .ok (largeArcFlag, t4) =>
    match getNumber t4 "a command sweep-flag" with
    | .error m => .error m
    | .ok (sweepFlag, t5) =>
    match getNumber t5 "a command end x" with
    | .error m => .error m
    | .ok (dx, t6) =>
    match getNumber t6 "a command end y" with
    | .error m => .error m
    | .ok (dy, t7) =>
      let x := st.currentX + dx
      let y := st.currentY + dy
      .ok (arcFn ⟨st.currentX, st.currentY, rx, ry, xAxisRotation,
            decide (largeArcFlag ≠ 0), decide (sweepFlag ≠ 0), x, y, arcSegments⟩,
        { st with currentX := x, currentY := y }, t7)
  | 'Z' | 'z' =>
    if st.currentX ≠ st.subpathStartX ∨ st.currentY ≠ st.subpathStartY then
      .ok ([⟨st.subpathStartX, st.subpathStartY⟩],
        { st with currentX := st.subpathStartX, currentY := st.subpathStartY }, tokens)
    else
      .ok ([], st, tokens)
  | _ => .error ("Unsupported command: " ++ String.mk [command])

/-- The command-group `do … while` loop of `extractPointsFromPath`.  After
each iteration the source sets `lastCommand` and `isFirstCoordSet = false`,
then continues (a) for `M`/`m` under the guard `!isFirstCoordSet` — which
reads the variable just assigned `false`, so the guard is written here as
the literal `¬(false : Bool)` it always evaluates to — or (b) when the next
token is a number; otherwise it breaks.  `fuel`
bounds the number of iterations (the loop can really diverge: a `Z` followed
by a number token consumes nothing and loops). -/
def runGroup (arcFn : ArcCall → List Pt) (curveSegments arcSegments : ℕ) :
    ℕ → Char → Bool → List Token → InterpState → List Pt →
    JsResult (List Pt × InterpState × List Token)
  | 0, _, _, _, _, _ => .hung
  | fuel + 1, command, isFirstCoordSet, tokens, st, acc =>
    match execCommand arcFn curveSegments arcSegments command isFirstCoordSet tokens st with
    | .error m => .thrown m
    | .ok (pts, st1, tokens1) =>
      if (command = 'M' ∨ command = 'm') ∧ ¬(false : Bool) then
        runGroup arcFn curveSegments arcSegments fuel command false tokens1
          { st1 with lastCommand := String.mk [command] } (acc ++ pts)
      else
        match tokens1 with
        | Token.number _ :: _ =>
          runGroup arcFn curveSegments arcSegments fuel command false tokens1
            { st1 with lastCommand := String.mk [command] } (acc ++ pts)
        | _ => .done (acc ++ pts, { st1 with lastCommand := String.mk [command] }, tokens1)

/-- The outer `while (i < tokens.length)` loop of `extractPointsFromPath`:
each iteration reads a command token (else throws) and runs its group.
`ti` is the index of the current token in the original token array. -/
def runTokens (arcFn : ArcCall → List Pt) (curveSegments arcSegments : ℕ) :
    ℕ → ℕ → List Token → InterpState → List Pt → JsResult (List Pt)
  | 0, _, _, _, _ => .hung
  | fuel + 1, ti, tokens, st, acc =>
    match tokens with
    | [] => .done acc
    | Token.number _ :: _ =>
      .thrown ("Expected command, got number at token " ++ toString ti)
    | Token.command c :: rest =>
      match runGroup arcFn curveSegments arcSegments (fuel + 1) c true rest st acc with
      | .hung => .hung
      | .thrown m => .thrown m
      | .done (acc2, st2, tokens2) =>
        runTokens arcFn curveSegments arcSegments fuel
          (ti + 1 + (rest.length - tokens2.length)) tokens2 st2 acc2

/-! ## Normalizer / polygon emitter -/

/-- JavaScript `Math.round` (round half toward `+∞`) as an exact operation. -/
def jsRound (q : ℚ) : ℤ := ⌊q + 1 / 2⌋

/-- Minimum `x` over a point list (the source folds `Math.min` from
`Infinity`; over a nonempty list that equals folding from the first
element, which is how it is written here; `0` for `[]`, unreachable). -/
def bboxMinX : List Pt → ℚ
  | [] => 0
  | p :: ps => ps.foldl (fun a q => min a q.x) p.x

/-- Minimum `y` over a point list (see `bboxMinX`). -/
def bboxMinY : List Pt → ℚ
  | [] => 0
  | p :: ps => ps.foldl (fun a q => min a q.y) p.y

/-- Maximum `x` over a point list (see `bboxMinX`). -/
def bboxMaxX : List Pt → ℚ
  | [] => 0
  | p :: ps => ps.foldl (fun a q => max a q.x) p.x

/-- Maximum `y` over a point list (see `bboxMinX`). -/
def bboxMaxY : List Pt → ℚ
  | [] => 0
  | p :: ps => ps.foldl (fun a q => max a q.y) p.y

/-- The normalization step of `extractPointsFromPath`: rescale to the
bounding box as percentages (`50` on an axis of zero extent) and round each
coordinate to two decimals. -/
def normalizePoints (pts : List Pt) : List Pt :=
  let minX := bboxMinX pts
  let minY := bboxMinY pts
  let maxX := bboxMaxX pts
  let maxY := bboxMaxY pts
  let width := maxX - minX
  let height := maxY - minY
  pts.map (fun p =>
    let normalizedX : ℚ := if width > 0 then (p.x - minX) / width * 100 else 50
    let normalizedY : ℚ := if height > 0 then (p.y - minY) / height * 100 else 50
    ⟨(jsRound (normalizedX * 100) : ℚ) / 100, (jsRound (normalizedY * 100) : ℚ) / 100⟩)

/-- `extractPointsFromPath`: tokenize, interpret, check non-emptiness,
normalize. -/
def extractPointsFromPath (arcFn : ArcCall → List Pt) (fuel : ℕ)
    (path : List Char) (options : PolygonConversionOptions) : JsResult (List Pt) :=
  match tokenizePath path with
  | .error m => .thrown m
  | .ok tokens =>
    match runTokens arcFn options.curveSegments options.arcSegments fuel 0 tokens
        initState [] with
    | .hung => .hung
    | .thrown m => .thrown m
    | .done absolutePoints =>
      if absolutePoints.length = 0 then .thrown "No points extracted from path"
      else .done (normalizePoints absolutePoints)

/-! ## Polygon entry point -/

/-- JavaScript `Number#toString` for a value that is an exact multiple of
`1/100` (the only values the emitter prints), given as `z` hundredths. -/
def formatHundredths (z : ℤ) : String :=
  let sgnStr := if z < 0 then "-" else ""
  let a := z.natAbs
  let ip := a / 100
  let fr := a % 100
  if fr = 0 then sgnStr ++ toString ip
  else if fr % 10 = 0 then sgnStr ++ toString ip ++ "." ++ toString (fr / 10)
  else if fr < 10 then sgnStr ++ toString ip ++ ".0" ++ toString fr
  else sgnStr ++ toString ip ++ "." ++ toString fr

/-- Print one rounded coordinate (an exact multiple of `1/100`). -/
def formatCoord (q : ℚ) : String := formatHundredths (q * 100).num

/-- `points.map(p => ...).join(', ')` of `convertSvgPathToPolygon`. -/
def joinPolygonPoints (pts : List Pt) : String :=
  String.intercalate ", "
    (pts.map (fun p => formatCoord p.x ++ "% " ++ formatCoord p.y ++ "%"))

/-- `convertSvgPathToPolygon`: full pipeline to a `clip-path: polygon(...)`
declaration; any failure inside the `try` block is re-thrown with the
`Failed to convert path to polygon: ` prefix. -/
def convertSvgPathToPolygon (arcFn : ArcCall → List Pt) (fuel : ℕ)
    (svgPath : List Char) (options : PolygonConversionOptions) : JsResult String :=
  if svgPath = [] ∨ jsTrim svgPath = [] then .thrown "SVG path cannot be empty"
  else if ¬ isValidSvgPath (jsTrim svgPath) then .thrown "Invalid SVG path format"
  else
    match extractPointsFromPath arcFn fuel (jsTrim svgPath) options with
    | .hung => .hung
    | .thrown m => .thrown ("Failed to convert path to polygon: " ++ m)
    | .done points =>
      if points.length < 3 then
        .thrown ("Failed to convert path to polygon: " ++
          "Path must contain at least 3 points to create a polygon")
      else
        .done ("clip-path: polygon(" ++ joinPolygonPoints points ++ ");")

/-! ## Elliptical arc flattener (real-valued) -/

/-- JavaScript `Math.atan2` in exact real arithmetic. -/
noncomputable def jsAtan2 (y x : ℝ) : ℝ :=
  if 0 < x then Real.arctan (y / x)
  else if x < 0 then
    (if 0 ≤ y then Real.arctan (y / x) + Real.pi else Real.arctan (y / x) - Real.pi)
  else
    (if 0 < y then Real.pi / 2 else if y < 0 then -(Real.pi / 2) else 0)

/-- `approximateArc`: endpoint-to-center parameterization of an SVG
elliptical arc, sampled at `segments` equal parameter steps
(`i = 1..segments`); degenerate radii short-circuit to the endpoint. -/
noncomputable def approximateArc (x1 y1 rx0 ry0 xAxisRotation : ℝ)
    (largeArcFlag sweepFlag : Bool) (x2 y2 : ℝ) (segments : ℕ) : List PtR :=
  if rx0 = 0 ∨ ry0 = 0 then [⟨x2, y2⟩]
  else
    let rx := |rx0|
    let ry := |ry0|
    let phi := xAxisRotation * Real.pi / 180
    let cosPhi := Real.cos phi
    let sinPhi := Real.sin phi
    let dx := (x1 - x2) / 2
    let dy := (y1 - y2) / 2
    let x1p := cosPhi * dx + sinPhi * dy
    let y1p := -sinPhi * dx + cosPhi * dy
    let lambda := x1p * x1p / (rx * rx) + y1p * y1p / (ry * ry)
    let rx2 := if 1 < lambda then rx * Real.sqrt lambda else rx
    let ry2 := if 1 < lambda then ry * Real.sqrt lambda else ry
    let sq := max 0 ((rx2 * rx2 * (ry2 * ry2) - rx2 * rx2 * (y1p * y1p) -
        ry2 * ry2 * (x1p * x1p)) / (rx2 * rx2 * (y1p * y1p) + ry2 * ry2 * (x1p * x1p)))
    let sign : ℝ := if largeArcFlag ≠ sweepFlag then 1 else -1
    let cxp := sign * Real.sqrt sq * (rx2 * y1p) / ry2
    let cyp := sign * Real.sqrt sq * (-(ry2 * x1p)) / rx2
    let cx := cosPhi * cxp - sinPhi * cyp + (x1 + x2) / 2
    let cy := sinPhi * cxp + cosPhi * cyp + (y1 + y2) / 2
    let theta1 := jsAtan2 ((y1p - cyp) / ry2) ((x1p - cxp) / rx2)
    let theta2 := jsAtan2 ((-y1p - cyp) / ry2) ((-x1p - cxp) / rx2)
    let dTheta0 := theta2 - theta1
    let dTheta :=
      if sweepFlag ∧ dTheta0 < 0 then dTheta0 + 2 * Real.pi
      else if ¬sweepFlag ∧ 0 < dTheta0 then dTheta0 - 2 * Real.pi
      else dTheta0
    (List.range segments).map (fun i : ℕ =>
      let t := ((i : ℝ) + 1) / (segments : ℝ)
      let theta := theta1 + t * dTheta
      ⟨cosPhi * rx2 * Real.cos theta - sinPhi * ry2 * Real.sin theta + cx,
       sinPhi * rx2 * Real.cos theta + cosPhi * ry2 * Real.sin theta + cy⟩)

/-- The polygon conversion diverges on `svgPath`: for every step budget and
any arc flattener the run is still looping. -/
def polygonConversionHangs (svgPath : List Char) (options : PolygonConversionOptions) : Prop :=
  ∀ (arcFn : ArcCall → List Pt) (fuel : ℕ),
    convertSvgPathToPolygon arcFn fuel svgPath options = .hung

/-! ## Interpreter lemmas -/

/-- A shorthand for the simp set that evaluates the tokenizer on concrete
input. -/
theorem getNumber_ok_iff {tokens : List Token} {ctx : String} {v : ℚ} {rest : List Token} :
    getNumber tokens ctx = .ok (v, rest) ↔ tokens = Token.number v :: rest := by
  unfold getNumber
  split <;> simp_all

/-- A successful `switch` iteration consumes only number tokens: every
command token of the input survives into the remainder. -/
theorem execCommand_commandMem {arcFn : ArcCall → List Pt} {cs as : ℕ} {c : Char}
    {b : Bool} {tokens : List Token} {st : InterpState}
    {pts : List Pt} {st2 : InterpState} {rem : List Token}
    (h : execCommand arcFn cs as c b tokens st = .ok (pts, st2, rem))
    {cc : Char} (hmem : Token.command cc ∈ tokens) : Token.command cc ∈ rem := by
  unfold execCommand at h
  split at h <;> (repeat' split at h) <;> simp_all [getNumber_ok_iff]

/-- The group loop for `M`/`m` never exits normally: its continue guard
(`!isFirstCoordSet` read right after the `isFirstCoordSet = false`
assignment) always sends it back into the moveto case. -/
theorem runGroup_moveto_never_done {arcFn : ArcCall → List Pt} {cs as : ℕ} :
    ∀ (fuel : ℕ) (c : Char) (b : Bool) (tokens : List Token) (st : InterpState)
      (acc : List Pt) (r : List Pt × InterpState × List Token),
      c = 'M' ∨ c = 'm' →
      runGroup arcFn cs as fuel c b tokens st acc ≠ .done r := by
  intro fuel
  induction fuel with
  | zero => intro c b tokens st acc r hc h; exact absurd h (by simp [runGroup])
  | succ n ih =>
    intro c b tokens st acc r hc h
    rw [runGroup] at h
    split at h
    · exact absurd h (by simp)
    · split at h
      · exact ih c false _ _ _ r hc h
      · rename_i hcond
        exact hcond ⟨hc, by decide⟩

/-- A group loop that exits normally consumed only number tokens. -/
theorem runGroup_done_commandMem {arcFn : ArcCall → List Pt} {cs as : ℕ} :
    ∀ (fuel : ℕ) (c : Char) (b : Bool) (tokens : List Token) (st : InterpState)
      (acc pts : List Pt) (st2 : InterpState) (rem : List Token),
      runGroup arcFn cs as fuel c b tokens st acc = .done (pts, st2, rem) →
      ∀ cc : Char, Token.command cc ∈ tokens → Token.command cc ∈ rem := by
  intro fuel
  induction fuel with
  | zero => intro c b tokens st acc pts st2 rem h; exact absurd h (by simp [runGroup])
  | succ n ih =>
    intro c b tokens st acc pts st2 rem h cc hmem
    rw [runGroup] at h
    split at h
    · exact absurd h (by simp)
    · rename_i pts1 st1 t1 heq
      have hmem1 : Token.command cc ∈ t1 := execCommand_commandMem heq hmem
      split at h
      · exact ih c false t1 _ _ pts st2 rem h cc hmem1
      · split at h
        · exact ih c false _ _ _ pts st2 rem h cc hmem1
        · simp only [JsResult.done.injEq, Prod.mk.injEq] at h
          exact h.2.2 ▸ hmem1

/-- Normal interpreter termination implies the token array contained no
`M`/`m` command token. -/
theorem runTokens_done_no_moveto {arcFn : ArcCall → List Pt} {cs as : ℕ} :
    ∀ (fuel ti : ℕ) (tokens : List Token) (st : InterpState) (acc res : List Pt),
      runTokens arcFn cs as fuel ti tokens st acc = .done res →
      Token.command 'M' ∉ tokens ∧ Token.command 'm' ∉ tokens := by
  intro fuel
  induction fuel with
  | zero => intro ti tokens st acc res h; exact absurd h (by simp [runTokens])
  | succ n ih =>
    intro ti tokens st acc res h
    rcases tokens with _ | ⟨t0, rest⟩
    · simp
    · rcases t0 with c | v
      · rw [runTokens] at h
        rcases hg : runGroup arcFn cs as (n + 1) c true rest st acc
          with ⟨acc2, st2, t2⟩ | m | _
        case thrown => rw [hg] at h; exact absurd h (by simp)
        case hung => rw [hg] at h; exact absurd h (by simp)
        · rw [hg] at h
          have hrec := ih _ t2 st2 acc2 res h
          have hcM : c ≠ 'M' := fun hc =>
            runGroup_moveto_never_done (n + 1) c true rest st acc _ (Or.inl hc) hg
          have hcm : c ≠ 'm' := fun hc =>
            runGroup_moveto_never_done (n + 1) c true rest st acc _ (Or.inr hc) hg
          refine ⟨fun hmem => ?_, fun hmem => ?_⟩
          · rcases List.mem_cons.mp hmem with heq2 | hmem2
            · exact hcM (by injection heq2 with h0; exact h0.symm)
            · exact hrec.1
                (runGroup_done_commandMem (n + 1) c true rest st acc _ _ _ hg 'M' hmem2)
          · rcases List.mem_cons.mp hmem with heq2 | hmem2
            · exact hcm (by injection heq2 with h0; exact h0.symm)
            · exact hrec.2
                (runGroup_done_commandMem (n + 1) c true rest st acc _ _ _ hg 'm' hmem2)
      · rw [runTokens] at h
        exact absurd h (by simp)

/-- A normally returning `extractPointsFromPath` run tokenized without any
`M`/`m` token. -/
theorem extractPointsFromPath_done_no_moveto {arcFn : ArcCall → List Pt} {fuel : ℕ}
    {p : List Char} {opts : PolygonConversionOptions} {res : List Pt} {ts : List Token}
    (h : extractPointsFromPath arcFn fuel p opts = .done res)
    (htok : tokenizePath p = .ok ts) :
    Token.command 'M' ∉ ts ∧ Token.command 'm' ∉ ts := by
  unfold extractPointsFromPath at h
  split at h
  · exact absurd h (by simp)
  · rename_i tokens heq
    rw [htok] at heq
    injection heq with heq2
    subst heq2
    split at h
    · exact absurd h (by simp)
    · exact absurd h (by simp)
    · rename_i abs hr
      exact runTokens_done_no_moveto fuel 0 _ initState [] abs hr

/-- A normally returning `convertSvgPathToPolygon` had a normally returning
`extractPointsFromPath`. -/
theorem convertSvgPathToPolygon_done_extract {arcFn : ArcCall → List Pt} {fuel : ℕ}
    {s : List Char} {opts : PolygonConversionOptions} {r : String}
    (h : convertSvgPathToPolygon arcFn fuel s opts = .done r) :
    ∃ pts, extractPointsFromPath arcFn fuel (jsTrim s) opts = .done pts := by
  unfold convertSvgPathToPolygon at h
  split at h
  · exact absurd h (by simp)
  · split at h
    · exact absurd h (by simp)
    · rcases he : extractPointsFromPath arcFn fuel (jsTrim s) opts with pts | m | _
      · exact ⟨pts, rfl⟩
      · rw [he] at h; exact absurd h (by simp)
      · rw [he] at h; exact absurd h (by simp)

/-- The group loop diverges on a `Z` whose next token is a number: the `Z`
case consumes no tokens, and once the cursor equals the subpath start an
iteration changes nothing, so the continue-on-number check fires forever. -/
theorem runGroup_close_number_hung {arcFn : ArcCall → List Pt} {cs as : ℕ} :
    ∀ (fuel : ℕ) (b : Bool) (v : ℚ) (rest : List Token) (st : InterpState) (acc : List Pt),
      st.currentX = st.subpathStartX → st.currentY = st.subpathStartY →
      runGroup arcFn cs as fuel 'Z' b (Token.number v :: rest) st acc = .hung := by
  intro fuel
  induction fuel with
  | zero => intros; rfl
  | succ n ih =>
    intro b v rest st acc h1 h2
    have hz : execCommand arcFn cs as 'Z' b (Token.number v :: rest) st =
        .ok ([], st, Token.number v :: rest) := by
      simp [execCommand, h1, h2]
    rw [runGroup, hz]
    simpa using ih false v rest { st with lastCommand := String.mk ['Z'] } acc h1 h2

/-- **C2** (amended): if the (trimmed) input tokenizes and its token
sequence contains an `M` or `m` command token, `convertSvgPathToPolygon`
never succeeds — it throws or diverges.  (The original claim said it always
throws; the counterexample below diverges instead.) -/
theorem convertSvgPathToPolygon_never_done_with_moveto
    (s : List Char) (ts : List Token) (arcFn : ArcCall → List Pt) (fuel : ℕ)
    (opts : PolygonConversionOptions) (r : String)
    (htok : tokenizePath (jsTrim s) = .ok ts)
    (hM : Token.command 'M' ∈ ts ∨ Token.command 'm' ∈ ts) :
    convertSvgPathToPolygon arcFn fuel s opts ≠ .done r := by
  intro hdone
  obtain ⟨pts, hex⟩ := convertSvgPathToPolygon_done_extract hdone
  have hno := extractPointsFromPath_done_no_moveto hex htok
  rcases hM with hM | hM
  · exact hno.1 hM
  · exact hno.2 hM

/-- Witness for the amended C2 theorem at the concrete input `"M0,0"`. -/
theorem convertSvgPathToPolygon_never_done_with_moveto_witness :
    convertSvgPathToPolygon trivialArc 9 "M0,0".toList {} ≠ .done "" :=
  convertSvgPathToPolygon_never_done_with_moveto "M0,0".toList
    [Token.command 'M', Token.number 0, Token.number 0] trivialArc 9 {} ""
    (by simp [tokenizePath, tokenizeAux, scanStep, startScan, finishNumber, badNumStr,
      jsParseFloat, digitsVal, isSeparator, isCommandLetter, isNumberStart, Except.map,
      jsTrim, isJsWhitespace])
    (Or.inl (by simp))

/-- **C2** (counterexample to the claim as stated): `"Z 5 M 0 0"` tokenizes
successfully, its token sequence contains an `M` command token, yet
`convertSvgPathToPolygon` does not throw: it diverges (the `Z` group loop
spins on the following number token), for every fuel and arc flattener. -/
theorem convertSvgPathToPolygon_moveto_input_hangs_without_throwing :
    tokenizePath (jsTrim "Z 5 M 0 0".toList) =
      .ok [Token.command 'Z', Token.number 5, Token.command 'M',
        Token.number 0, Token.number 0] ∧
    Token.command 'M' ∈ ([Token.command 'Z', Token.number 5, Token.command 'M',
        Token.number 0, Token.number 0] : List Token) ∧
    polygonConversionHangs "Z 5 M 0 0".toList {} := by
  refine ⟨?_, by simp, ?_⟩
  · simp [tokenizePath, tokenizeAux, scanStep, startScan, finishNumber, badNumStr,
      jsParseFloat, digitsVal, isSeparator, isCommandLetter, isNumberStart, Except.map,
      jsTrim, isJsWhitespace]
  · intro arcFn fuel
    cases fuel with
    | zero =>
      simp [convertSvgPathToPolygon, extractPointsFromPath, runTokens,
        tokenizePath, tokenizeAux, scanStep, startScan, finishNumber, badNumStr,
        jsParseFloat, digitsVal, isSeparator, isCommandLetter, isNumberStart, Except.map,
        jsTrim, isJsWhitespace, isValidSvgPath]
    | succ n =>
      have hg := @runGroup_close_number_hung arcFn 8 16 (n + 1) true 5
        [Token.command 'M', Token.number 0, Token.number 0] initState [] rfl rfl
      simp [convertSvgPathToPolygon, extractPointsFromPath, runTokens, hg,
        tokenizePath, tokenizeAux, scanStep, startScan, finishNumber, badNumStr,
        jsParseFloat, digitsVal, isSeparator, isCommandLetter, isNumberStart, Except.map,
        jsTrim, isJsWhitespace, isValidSvgPath]

/-- **C1**: contrary to the claim, the square path does not convert: the
moveto group loop unconditionally re-enters the `M` case after its first
pair, and the operand read then fails (the next token is the command `L`),
so default-quality conversion throws the wrapped interpreter error.  Stated
for every fuel of the form `f + 2` (two group iterations reach the throw). -/
theorem convertSvgPathToPolygon_square_example_throws (f : ℕ) :
    convertSvgPathToPolygon trivialArc (f + 2)
      "M 10 10 L 90 10 L 90 90 L 10 90 Z".toList {} =
      .thrown
        "Failed to convert path to polygon: Expected number for M command x-coordinate" := by
  simp [convertSvgPathToPolygon, extractPointsFromPath, runTokens, runGroup, execCommand,
    getNumber, tokenizePath, tokenizeAux, scanStep, startScan, finishNumber, badNumStr,
    jsParseFloat, digitsVal, isSeparator, isCommandLetter, isNumberStart, Except.map,
    jsTrim, isJsWhitespace, isValidSvgPath, initState]

/-- **C3**: contrary to the claim, `"M10,10Z"` does not fail with the
insufficient-points error: the moveto group loop re-enters the `M` case
(the next token is `Z`), so the conversion throws the wrapped interpreter
error instead.  Stated for every fuel of the form `f + 2`. -/
theorem convertSvgPathToPolygon_single_point_close_throws_interp_error (f : ℕ) :
    convertSvgPathToPolygon trivialArc (f + 2) "M10,10Z".toList {} =
      .thrown
        "Failed to convert path to polygon: Expected number for M command x-coordinate" := by
  simp [convertSvgPathToPolygon, extractPointsFromPath, runTokens, runGroup, execCommand,
    getNumber, tokenizePath, tokenizeAux, scanStep, startScan, finishNumber, badNumStr,
    jsParseFloat, digitsVal, isSeparator, isCommandLetter, isNumberStart, Except.map,
    jsTrim, isJsWhitespace, isValidSvgPath, initState]

/-- **C5**: the tokenizer accepts `"-.5e-3"` as the single number token of
value `-0.0005` (exactly `-1/2000`), accepts `"1."` as `1.0`, and fails on
`"."` alone with the tokenize error for a malformed number. -/
theorem tokenizePath_number_literal_edge_cases :
    tokenizePath "-.5e-3".toList = .ok [Token.number (-(1 / 2000))] ∧
    tokenizePath "1.".toList = .ok [Token.number 1] ∧
    tokenizePath ".".toList = .error "Invalid number format: \".\"" := by
  refine ⟨?_, ?_, ?_⟩
  · simp [tokenizePath, tokenizeAux, scanStep, startScan, finishNumber, badNumStr,
      jsParseFloat, digitsVal, isSeparator, isCommandLetter, isNumberStart, Except.map]
    norm_num
  · simp [tokenizePath, tokenizeAux, scanStep, startScan, finishNumber, badNumStr,
      jsParseFloat, digitsVal, isSeparator, isCommandLetter, isNumberStart, Except.map]
  · simp [tokenizePath, tokenizeAux, scanStep, startScan, finishNumber, badNumStr,
      jsParseFloat, digitsVal, isSeparator, isCommandLetter, isNumberStart, Except.map]

/-- **C4**: `convertSvgPathToClipPath` succeeds exactly when the trimmed
input contains at least one command letter, returning the declaration with
the trimmed input embedded character-for-character; it fails on every
empty/whitespace-only input and on every input without a command letter
(both are covered by the no-command-letter case, since a whitespace-only
input trims to `[]`). -/
theorem convertSvgPathToClipPath_passthrough :
    (∀ s : List Char, (∃ c ∈ jsTrim s, isCommandLetter c) →
      convertSvgPathToClipPath s =
        .ok ("clip-path: path('" ++ String.mk (jsTrim s) ++ "');")) ∧
    (∀ s : List Char, (¬∃ c ∈ jsTrim s, isCommandLetter c) →
      ∃ e, convertSvgPathToClipPath s = .error e) := by
  constructor
  · intro s hex
    obtain ⟨c, hc, hcl⟩ := hex
    have hne : jsTrim s ≠ [] := List.ne_nil_of_mem hc
    have hs : s ≠ [] := by
      intro h0
      rw [h0] at hne
      exact hne rfl
    have hv : isValidSvgPath (jsTrim s) = true := List.any_eq_true.mpr ⟨c, hc, hcl⟩
    unfold convertSvgPathToClipPath
    rw [if_neg (by simp [hs, hne]), if_neg (by simp [hv])]
  · intro s hnx
    by_cases h0 : s = [] ∨ jsTrim s = []
    · refine ⟨"SVG path cannot be empty", ?_⟩
      unfold convertSvgPathToClipPath
      rw [if_pos h0]
    · have hv : isValidSvgPath (jsTrim s) = false := by
        simp only [isValidSvgPath, List.any_eq_false]
        intro c hc hcl
        exact hnx ⟨c, hc, hcl⟩
      refine ⟨"Invalid SVG path format", ?_⟩
      unfold convertSvgPathToClipPath
      rw [if_neg h0, if_pos (by simp [hv])]

/-- Witness for C4 at `"M0,0"` (success side) and `"0 1 2"` (failure side). -/
theorem convertSvgPathToClipPath_passthrough_witness :
    convertSvgPathToClipPath "M0,0".toList =
      .ok ("clip-path: path('" ++ String.mk (jsTrim "M0,0".toList) ++ "');") ∧
    ∃ e, convertSvgPathToClipPath "0 1 2".toList = .error e := by
  refine ⟨convertSvgPathToClipPath_passthrough.1 "M0,0".toList ⟨'M', by decide, by decide⟩,
    convertSvgPathToClipPath_passthrough.2 "0 1 2".toList ?_⟩
  decide

/-- **C8**: an executed `Z`/`z` appends no point exactly when the cursor
already equals the subpath start (and then changes nothing), and otherwise
appends exactly one point equal to the subpath start and moves the cursor
there; in both cases the returned state's subpath-start fields are the
input's, so the command never modifies the subpath start. -/
theorem execCommand_close_path_effect
    (arcFn : ArcCall → List Pt) (cs as : ℕ) (c : Char) (b : Bool)
    (tokens : List Token) (st : InterpState) (hc : c = 'Z' ∨ c = 'z') :
    ((st.currentX = st.subpathStartX ∧ st.currentY = st.subpathStartY) →
      execCommand arcFn cs as c b tokens st = .ok ([], st, tokens)) ∧
    (¬(st.currentX = st.subpathStartX ∧ st.currentY = st.subpathStartY) →
      execCommand arcFn cs as c b tokens st =
        .ok ([⟨st.subpathStartX, st.subpathStartY⟩],
          { st with currentX := st.subpathStartX, currentY := st.subpathStartY },
          tokens)) := by
  have hcond : ∀ hne : ¬(st.currentX = st.subpathStartX ∧ st.currentY = st.subpathStartY),
      st.currentX ≠ st.subpathStartX ∨ st.currentY ≠ st.subpathStartY := by
    intro hne
    by_contra hno
    push_neg at hno
    exact hne ⟨hno.1, hno.2⟩
  rcases hc with rfl | rfl <;>
    exact ⟨fun h12 => by simp [execCommand, h12.1, h12.2],
      fun hne => by simp only [execCommand]; rw [if_pos (hcond hne)]⟩

/-- Witness for C8: both branches at concrete states. -/
theorem execCommand_close_path_effect_witness :
    execCommand trivialArc 8 16 'Z' true [] ⟨1, 2, 3, 4, 0, 0, ""⟩ =
      .ok ([⟨3, 4⟩], ⟨3, 4, 3, 4, 0, 0, ""⟩, []) ∧
    execCommand trivialArc 8 16 'z' false [] ⟨5, 6, 5, 6, 0, 0, ""⟩ =
      .ok ([], ⟨5, 6, 5, 6, 0, 0, ""⟩, []) := by
  constructor
  · exact (execCommand_close_path_effect trivialArc 8 16 'Z' true []
      ⟨1, 2, 3, 4, 0, 0, ""⟩ (Or.inl rfl)).2 (by norm_num)
  · exact (execCommand_close_path_effect trivialArc 8 16 'z' false []
      ⟨5, 6, 5, 6, 0, 0, ""⟩ (Or.inr rfl)).1 (by norm_num)

/-- **C9**: with `rx = 0` or `ry = 0` the arc flattener short-circuits to
the single-point list holding the arc's endpoint; no error is raised (the
function is total). -/
theorem approximateArc_degenerate_radii
    (x1 y1 rx ry rot : ℝ) (laf swf : Bool) (x2 y2 : ℝ) (segments : ℕ)
    (h : rx = 0 ∨ ry = 0) :
    approximateArc x1 y1 rx ry rot laf swf x2 y2 segments = [⟨x2, y2⟩] := by
  unfold approximateArc
  rw [if_pos h]

/-- Witness for C9 at `rx = 0`. -/
theorem approximateArc_degenerate_radii_witness :
    approximateArc 1 2 0 3 0 true false 7 8 5 = [⟨7, 8⟩] :=
  approximateArc_degenerate_radii 1 2 0 3 0 true false 7 8 5 (Or.inl rfl)

/-! ## Bounding box and normalization lemmas -/

theorem foldl_min_le_init : ∀ (l : List ℚ) (a : ℚ), List.foldl min a l ≤ a := by
  intro l
  induction l with
  | nil => intro a; simp
  | cons x xs ih => intro a; exact le_trans (ih (min a x)) (min_le_left a x)

theorem foldl_min_le_mem : ∀ (l : List ℚ) (a x : ℚ), x ∈ l → List.foldl min a l ≤ x := by
  intro l
  induction l with
  | nil => intro a x hx; exact absurd hx (List.not_mem_nil x)
  | cons y ys ih =>
    intro a x hx
    rcases List.mem_cons.mp hx with rfl | hx2
    · exact le_trans (foldl_min_le_init ys (min a x)) (min_le_right a x)
    · exact ih (min a y) x hx2

theorem foldl_min_attains : ∀ (l : List ℚ) (a : ℚ),
    List.foldl min a l = a ∨ List.foldl min a l ∈ l := by
  intro l
  induction l with
  | nil => intro a; exact Or.inl rfl
  | cons y ys ih =>
    intro a
    rcases ih (min a y) with h | h
    · rcases min_choice a y with hm | hm
      · exact Or.inl (by rw [List.foldl_cons, h, hm])
      · exact Or.inr (by rw [List.foldl_cons, h, hm]; exact List.mem_cons_self y ys)
    · exact Or.inr (List.mem_cons_of_mem y h)

theorem le_foldl_max_init : ∀ (l : List ℚ) (a : ℚ), a ≤ List.foldl max a l := by
  intro l
  induction l with
  | nil => intro a; simp
  | cons x xs ih => intro a; exact le_trans (le_max_left a x) (ih (max a x))

theorem mem_le_foldl_max : ∀ (l : List ℚ) (a x : ℚ), x ∈ l → x ≤ List.foldl max a l := by
  intro l
  induction l with
  | nil => intro a x hx; exact absurd hx (List.not_mem_nil x)
  | cons y ys ih =>
    intro a x hx
    rcases List.mem_cons.mp hx with rfl | hx2
    · exact le_trans (le_max_right a x) (le_foldl_max_init ys (max a x))
    · exact ih (max a y) x hx2

theorem foldl_max_attains : ∀ (l : List ℚ) (a : ℚ),
    List.foldl max a l = a ∨ List.foldl max a l ∈ l := by
  intro l
  induction l with
  | nil => intro a; exact Or.inl rfl
  | cons y ys ih =>
    intro a
    rcases ih (max a y) with h | h
    · rcases max_choice a y with hm | hm
      · exact Or.inl (by rw [List.foldl_cons, h, hm])
      · exact Or.inr (by rw [List.foldl_cons, h, hm]; exact List.mem_cons_self y ys)
    · exact Or.inr (List.mem_cons_of_mem y h)

/-- The `x` fold of `bboxMinX` seen as a fold over the mapped values. -/
theorem bboxMinX_cons (p : Pt) (ps : List Pt) :
    bboxMinX (p :: ps) = List.foldl min p.x (ps.map Pt.x) := by
  rw [bboxMinX, List.foldl_map]

theorem bboxMinY_cons (p : Pt) (ps : List Pt) :
    bboxMinY (p :: ps) = List.foldl min p.y (ps.map Pt.y) := by
  rw [bboxMinY, List.foldl_map]

theorem bboxMaxX_cons (p : Pt) (ps : List Pt) :
    bboxMaxX (p :: ps) = List.foldl max p.x (ps.map Pt.x) := by
  rw [bboxMaxX, List.foldl_map]

theorem bboxMaxY_cons (p : Pt) (ps : List Pt) :
    bboxMaxY (p :: ps) = List.foldl max p.y (ps.map Pt.y) := by
  rw [bboxMaxY, List.foldl_map]

/-- Bounding-box bounds: every point lies between the folded min and max. -/
theorem bbox_le_x {pts : List Pt} {p : Pt} (hp : p ∈ pts) :
    bboxMinX pts ≤ p.x ∧ p.x ≤ bboxMaxX pts := by
  rcases pts with _ | ⟨p0, ps⟩
  · exact absurd hp (List.not_mem_nil p)
  · rw [bboxMinX_cons, bboxMaxX_cons]
    rcases List.mem_cons.mp hp with rfl | hp2
    · exact ⟨foldl_min_le_init _ _, le_foldl_max_init _ _⟩
    · have hx : p.x ∈ ps.map Pt.x := List.mem_map_of_mem Pt.x hp2
      exact ⟨foldl_min_le_mem _ _ _ hx, mem_le_foldl_max _ _ _ hx⟩

theorem bbox_le_y {pts : List Pt} {p : Pt} (hp : p ∈ pts) :
    bboxMinY pts ≤ p.y ∧ p.y ≤ bboxMaxY pts := by
  rcases pts with _ | ⟨p0, ps⟩
  · exact absurd hp (List.not_mem_nil p)
  · rw [bboxMinY_cons, bboxMaxY_cons]
    rcases List.mem_cons.mp hp with rfl | hp2
    · exact ⟨foldl_min_le_init _ _, le_foldl_max_init _ _⟩
    · have hy : p.y ∈ ps.map Pt.y := List.mem_map_of_mem Pt.y hp2
      exact ⟨foldl_min_le_mem _ _ _ hy, mem_le_foldl_max _ _ _ hy⟩

/-- The folded min/max of each axis is attained by some point. -/
theorem bboxMinX_attained {pts : List Pt} (hne : pts ≠ []) :
    ∃ p ∈ pts, p.x = bboxMinX pts := by
  rcases pts with _ | ⟨p0, ps⟩
  · exact absurd rfl hne
  · rw [bboxMinX_cons]
    rcases foldl_min_attains (ps.map Pt.x) p0.x with h | h
    · exact ⟨p0, List.mem_cons_self p0 ps, h.symm⟩
    · obtain ⟨q, hq, hqx⟩ := List.mem_map.mp h
      exact ⟨q, List.mem_cons_of_mem p0 hq, hqx⟩

theorem bboxMaxX_attained {pts : List Pt} (hne : pts ≠ []) :
    ∃ p ∈ pts, p.x = bboxMaxX pts := by
  rcases pts with _ | ⟨p0, ps⟩
  · exact absurd rfl hne
  · rw [bboxMaxX_cons]
    rcases foldl_max_attains (ps.map Pt.x) p0.x with h | h
    · exact ⟨p0, List.mem_cons_self p0 ps, h.symm⟩
    · obtain ⟨q, hq, hqx⟩ := List.mem_map.mp h
      exact ⟨q, List.mem_cons_of_mem p0 hq, hqx⟩

theorem bboxMinY_attained {pts : List Pt} (hne : pts ≠ []) :
    ∃ p ∈ pts, p.y = bboxMinY pts := by
  rcases pts with _ | ⟨p0, ps⟩
  · exact absurd rfl hne
  · rw [bboxMinY_cons]
    rcases foldl_min_attains (ps.map Pt.y) p0.y with h | h
    · exact ⟨p0, List.mem_cons_self p0 ps, h.symm⟩
    · obtain ⟨q, hq, hqy⟩ := List.mem_map.mp h
      exact ⟨q, List.mem_cons_of_mem p0 hq, hqy⟩

theorem bboxMaxY_attained {pts : List Pt} (hne : pts ≠ []) :
    ∃ p ∈ pts, p.y = bboxMaxY pts := by
  rcases pts with _ | ⟨p0, ps⟩
  · exact absurd rfl hne
  · rw [bboxMaxY_cons]
    rcases foldl_max_attains (ps.map Pt.y) p0.y with h | h
    · exact ⟨p0, List.mem_cons_self p0 ps, h.symm⟩
    · obtain ⟨q, hq, hqy⟩ := List.mem_map.mp h
      exact ⟨q, List.mem_cons_of_mem p0 hq, hqy⟩

/-- `jsRound` bounds: a value in `[0, b]` rounds into `[0, b]` for natural
`b` (used with `b = 10000` hundredths). -/
theorem jsRound_nonneg {q : ℚ} (h : 0 ≤ q) : 0 ≤ jsRound q := by
  rw [jsRound]
  exact Int.le_floor.mpr (by push_cast; linarith)

theorem jsRound_le {q : ℚ} {b : ℤ} (h : q ≤ (b : ℚ)) : jsRound q ≤ b := by
  rw [jsRound]
  have : q + 1 / 2 < (b : ℚ) + 1 := by linarith
  exact Int.lt_add_one_iff.mp (Int.floor_lt.mpr (by push_cast; linarith))

theorem jsRound_zero : jsRound 0 = 0 := by
  rw [jsRound]
  norm_num

theorem jsRound_intCast (z : ℤ) : jsRound (z : ℚ) = z := by
  rw [jsRound, Int.floor_int_add]
  norm_num

/-- Membership in the normalized list comes from a source point. -/
theorem normalizePoints_mem {pts : List Pt} {q : Pt} (hq : q ∈ normalizePoints pts) :
    ∃ p ∈ pts,
      q.x = (jsRound ((if 0 < bboxMaxX pts - bboxMinX pts then
          (p.x - bboxMinX pts) / (bboxMaxX pts - bboxMinX pts) * 100 else 50) * 100) : ℚ)
        / 100 ∧
      q.y = (jsRound ((if 0 < bboxMaxY pts - bboxMinY pts then
          (p.y - bboxMinY pts) / (bboxMaxY pts - bboxMinY pts) * 100 else 50) * 100) : ℚ)
        / 100 := by
  simp only [normalizePoints, gt_iff_lt] at hq
  obtain ⟨p, hp, rfl⟩ := List.mem_map.mp hq
  exact ⟨p, hp, rfl, rfl⟩

/-- The image of a source point in the normalized list. -/
theorem normalizePoints_mem_image {pts : List Pt} {p : Pt} (hp : p ∈ pts) :
    (⟨(jsRound ((if 0 < bboxMaxX pts - bboxMinX pts then
          (p.x - bboxMinX pts) / (bboxMaxX pts - bboxMinX pts) * 100 else 50) * 100) : ℚ)
        / 100,
      (jsRound ((if 0 < bboxMaxY pts - bboxMinY pts then
          (p.y - bboxMinY pts) / (bboxMaxY pts - bboxMinY pts) * 100 else 50) * 100) : ℚ)
        / 100⟩ : Pt) ∈ normalizePoints pts := by
  simp only [normalizePoints, gt_iff_lt]
  exact List.mem_map.mpr ⟨p, hp, rfl⟩

/-- A coordinate in `[0, 1]`-scaled position rounds into `[0, 100]`. -/
theorem rounded_coord_bounds {v : ℚ} (h0 : 0 ≤ v) (h1 : v ≤ 100) :
    0 ≤ (jsRound (v * 100) : ℚ) / 100 ∧ (jsRound (v * 100) : ℚ) / 100 ≤ 100 := by
  have hz0 : (0 : ℤ) ≤ jsRound (v * 100) := jsRound_nonneg (by linarith)
  have hz1 : jsRound (v * 100) ≤ 10000 := jsRound_le (by push_cast; linarith)
  constructor
  · positivity
  · rw [div_le_iff₀ (by norm_num : (0 : ℚ) < 100)]
    calc (jsRound (v * 100) : ℚ) ≤ (10000 : ℤ) := by exact_mod_cast hz1
    _ = 100 * 100 := by norm_num

/-- **C6**: whenever `extractPointsFromPath` succeeds, its result is the
normalization of a nonempty absolute-point list: on an axis of positive
path-space extent the normalized coordinates lie in `[0, 100]` and attain
both `0` and `100`, and on an axis of zero extent every normalized
coordinate equals `50`. -/
theorem extractPointsFromPath_normalization
    (arcFn : ArcCall → List Pt) (fuel : ℕ) (path : List Char)
    (opts : PolygonConversionOptions) (res : List Pt)
    (h : extractPointsFromPath arcFn fuel path opts = .done res) :
    ∃ abs : List Pt, abs ≠ [] ∧ res = normalizePoints abs ∧
      (0 < bboxMaxX abs - bboxMinX abs →
        (∀ q ∈ res, 0 ≤ q.x ∧ q.x ≤ 100) ∧
        (∃ q ∈ res, q.x = 0) ∧ (∃ q ∈ res, q.x = 100)) ∧
      (bboxMaxX abs - bboxMinX abs = 0 → ∀ q ∈ res, q.x = 50) ∧
      (0 < bboxMaxY abs - bboxMinY abs →
        (∀ q ∈ res, 0 ≤ q.y ∧ q.y ≤ 100) ∧
        (∃ q ∈ res, q.y = 0) ∧ (∃ q ∈ res, q.y = 100)) ∧
      (bboxMaxY abs - bboxMinY abs = 0 → ∀ q ∈ res, q.y = 50) := by
  unfold extractPointsFromPath at h
  split at h
  · exact absurd h (by simp)
  · split at h
    · exact absurd h (by simp)
    · exact absurd h (by simp)
    · rename_i abs hr
      split at h
      · exact absurd h (by simp)
      · rename_i hlen
        have hres : res = normalizePoints abs := by
          have := h
          simp only [JsResult.done.injEq] at this
          exact this.symm
        have hne : abs ≠ [] := by
          intro h0
          exact hlen (by rw [h0]; rfl)
        subst hres
        refine ⟨abs, hne, rfl, ?_, ?_, ?_, ?_⟩
        · intro hw
          refine ⟨?_, ?_, ?_⟩
          · intro q hq
            obtain ⟨p, hp, hqx, hqy⟩ := normalizePoints_mem hq
            have hb := bbox_le_x hp
            rw [hqx, if_pos hw]
            exact rounded_coord_bounds
              (by nlinarith [div_nonneg (by linarith [hb.1] : (0:ℚ) ≤ p.x - bboxMinX abs) hw.le])
              (by nlinarith [(div_le_one hw).mpr (by linarith [hb.2] :
                p.x - bboxMinX abs ≤ bboxMaxX abs - bboxMinX abs)])
          · obtain ⟨p, hp, hpx⟩ := bboxMinX_attained hne
            refine ⟨_, normalizePoints_mem_image hp, ?_⟩
            rw [if_pos hw, hpx]
            simp [jsRound_zero]
          · obtain ⟨p, hp, hpx⟩ := bboxMaxX_attained hne
            refine ⟨_, normalizePoints_mem_image hp, ?_⟩
            rw [if_pos hw, hpx, div_self (ne_of_gt hw)]
            norm_num [jsRound]
        · intro hw0
          intro q hq
          obtain ⟨p, hp, hqx, hqy⟩ := normalizePoints_mem hq
          rw [hqx, if_neg (by rw [hw0]; exact lt_irrefl 0)]
          norm_num [jsRound]
        · intro hw
          refine ⟨?_, ?_, ?_⟩
          · intro q hq
            obtain ⟨p, hp, hqx, hqy⟩ := normalizePoints_mem hq
            have hb := bbox_le_y hp
            rw [hqy, if_pos hw]
            exact rounded_coord_bounds
              (by nlinarith [div_nonneg (by linarith [hb.1] : (0:ℚ) ≤ p.y - bboxMinY abs) hw.le])
              (by nlinarith [(div_le_one hw).mpr (by linarith [hb.2] :
                p.y - bboxMinY abs ≤ bboxMaxY abs - bboxMinY abs)])
          · obtain ⟨p, hp, hpy⟩ := bboxMinY_attained hne
            refine ⟨_, normalizePoints_mem_image hp, ?_⟩
            rw [if_pos hw, hpy]
            simp [jsRound_zero]
          · obtain ⟨p, hp, hpy⟩ := bboxMaxY_attained hne
            refine ⟨_, normalizePoints_mem_image hp, ?_⟩
            rw [if_pos hw, hpy, div_self (ne_of_gt hw)]
            norm_num [jsRound]
        · intro hw0
          intro q hq
          obtain ⟨p, hp, hqx, hqy⟩ := normalizePoints_mem hq
          rw [hqy, if_neg (by rw [hw0]; exact lt_irrefl 0)]
          norm_num [jsRound]

/-- Witness for C6 at a concrete three-point path (no `M`, so the
interpreter terminates; extents 10 and 5). -/
theorem extractPointsFromPath_normalization_witness :
    ∃ abs : List Pt, abs ≠ [] ∧
      ([⟨0, 0⟩, ⟨100, 0⟩, ⟨100, 100⟩] : List Pt) = normalizePoints abs ∧
      (0 < bboxMaxX abs - bboxMinX abs →
        (∀ q ∈ ([⟨0, 0⟩, ⟨100, 0⟩, ⟨100, 100⟩] : List Pt), 0 ≤ q.x ∧ q.x ≤ 100) ∧
        (∃ q ∈ ([⟨0, 0⟩, ⟨100, 0⟩, ⟨100, 100⟩] : List Pt), q.x = 0) ∧
        (∃ q ∈ ([⟨0, 0⟩, ⟨100, 0⟩, ⟨100, 100⟩] : List Pt), q.x = 100)) ∧
      (bboxMaxX abs - bboxMinX abs = 0 →
        ∀ q ∈ ([⟨0, 0⟩, ⟨100, 0⟩, ⟨100, 100⟩] : List Pt), q.x = 50) ∧
      (0 < bboxMaxY abs - bboxMinY abs →
        (∀ q ∈ ([⟨0, 0⟩, ⟨100, 0⟩, ⟨100, 100⟩] : List Pt), 0 ≤ q.y ∧ q.y ≤ 100) ∧
        (∃ q ∈ ([⟨0, 0⟩, ⟨100, 0⟩, ⟨100, 100⟩] : List Pt), q.y = 0) ∧
        (∃ q ∈ ([⟨0, 0⟩, ⟨100, 0⟩, ⟨100, 100⟩] : List Pt), q.y = 100)) ∧
      (bboxMaxY abs - bboxMinY abs = 0 →
        ∀ q ∈ ([⟨0, 0⟩, ⟨100, 0⟩, ⟨100, 100⟩] : List Pt), q.y = 50) :=
  extractPointsFromPath_normalization trivialArc 100 "L0 0 L10 0 L10 5".toList {}
    [⟨0, 0⟩, ⟨100, 0⟩, ⟨100, 100⟩]
    (by
      simp [extractPointsFromPath, runTokens, runGroup, execCommand, getNumber,
        tokenizePath, tokenizeAux, scanStep, startScan, finishNumber, badNumStr,
        jsParseFloat, digitsVal, isSeparator, isCommandLetter, isNumberStart, Except.map,
        initState, normalizePoints, bboxMinX, bboxMinY, bboxMaxX, bboxMaxY, jsRound,
        min_def, max_def]
      norm_num)

/-- `Except.map` never turns success into an error. -/
theorem except_map_eq_error {α β : Type} {f : α → β} {x : Except String α} {m : String}
    (h : Except.map f x = .error m) : x = .error m := by
  cases x with
  | error e =>
    have h3 : (Except.error e : Except String β) = .error m := by
      simpa only [Except.map] using h
    injection h3 with h2
    rw [h2]
  | ok a => simp [Except.map] at h

/-- The three ways `finishNumber` can fail. -/
theorem finishNumber_error {acc : List Char} {k : Except String (List Token)} {m : String}
    (h : finishNumber acc k = .error m) :
    m = "Invalid number format: \"" ++ String.mk acc ++ "\"" ∨
    m = "Invalid numeric value: \"" ++ String.mk acc ++ "\"" ∨ k = .error m := by
  unfold finishNumber at h
  split at h
  · injection h with h1
    exact Or.inl h1.symm
  · split at h
    · injection h with h1
      exact Or.inr (Or.inl h1.symm)
    · exact Or.inr (Or.inr (except_map_eq_error h))

/-- Every error of the tokenizer loop is a number-format, numeric-value or
unexpected-character message; the latter carries the offset of an actual
input character. -/
theorem tokenizeAux_error_shape :
    ∀ (cs : List Char) (i : ℕ) (sc : Option NumScan) (m : String),
      tokenizeAux cs i sc = .error m →
      (∃ ns : List Char, m = "Invalid number format: \"" ++ String.mk ns ++ "\"") ∨
      (∃ ns : List Char, m = "Invalid numeric value: \"" ++ String.mk ns ++ "\"") ∨
      (∃ c k, m = unexpectedCharMsg c (i + k) ∧ cs.get? k = some c) := by
  intro cs
  induction cs with
  | nil =>
    intro i sc m h
    cases sc with
    | none => exact absurd h (by simp [tokenizeAux])
    | some sc =>
      rw [tokenizeAux] at h
      rcases finishNumber_error h with h1 | h1 | h1
      · exact Or.inl ⟨sc.acc, h1⟩
      · exact Or.inr (Or.inl ⟨sc.acc, h1⟩)
      · exact absurd h1 (by simp)
  | cons c rest ih =>
    intro i sc m h
    have shift : ∀ sc2 : Option NumScan, tokenizeAux rest (i + 1) sc2 = .error m →
        (∃ ns : List Char, m = "Invalid number format: \"" ++ String.mk ns ++ "\"") ∨
        (∃ ns : List Char, m = "Invalid numeric value: \"" ++ String.mk ns ++ "\"") ∨
        (∃ c2 k, m = unexpectedCharMsg c2 (i + k) ∧ (c :: rest).get? k = some c2) := by
      intro sc2 h2
      rcases ih (i + 1) sc2 m h2 with h1 | h1 | ⟨c2, k, hm, hg⟩
      · exact Or.inl h1
      · exact Or.inr (Or.inl h1)
      · refine Or.inr (Or.inr ⟨c2, k + 1, ?_, by simpa using hg⟩)
        rw [hm]
        congr 1
        omega
    cases sc with
    | none =>
      rw [tokenizeAux] at h
      split at h
      · exact shift none h
      · split at h
        · exact shift none (except_map_eq_error h)
        · split at h
          · exact shift (some (startScan c)) h
          · injection h with h1
            exact Or.inr (Or.inr ⟨c, 0, by rw [← h1, Nat.add_zero], rfl⟩)
    | some sc =>
      rw [tokenizeAux] at h
      split at h
      · rename_i sc2 hstep
        exact shift (some sc2) h
      · rcases finishNumber_error h with h1 | h1 | h1
        · exact Or.inl ⟨sc.acc, h1⟩
        · exact Or.inr (Or.inl ⟨sc.acc, h1⟩)
        · split at h1
          · exact shift none h1
          · split at h1
            · exact shift none (except_map_eq_error h1)
            · split at h1
              · exact shift (some (startScan c)) h1
              · injection h1 with h2
                exact Or.inr (Or.inr ⟨c, 0, by rw [← h2, Nat.add_zero], rfl⟩)

/-- A tokenize-stage error of the polygon pipeline reaches the caller with
exactly the fixed wrapper prefix prepended. -/
theorem tokenize_error_propagates
    (arcFn : ArcCall → List Pt) (fuel : ℕ) (s : List Char)
    (opts : PolygonConversionOptions) (m : String)
    (hv : isValidSvgPath (jsTrim s) = true)
    (htok : tokenizePath (jsTrim s) = .error m) :
    convertSvgPathToPolygon arcFn fuel s opts =
      .thrown ("Failed to convert path to polygon: " ++ m) := by
  have hne : jsTrim s ≠ [] := by
    intro h0
    rw [h0] at hv
    exact absurd hv (by decide)
  have hs : s ≠ [] := by
    intro h0
    exact hne (by rw [h0]; rfl)
  unfold convertSvgPathToPolygon
  rw [if_neg (by simp [hs, hne]), if_neg (by simp [hv])]
  unfold extractPointsFromPath
  rw [htok]

/-- **C10** (amended): every tokenize-stage failure carries one of three
messages — the unexpected-character message includes the offending
character together with its index (an index at which that character really
sits in the tokenized text), while the malformed-number messages include
the offending literal text but no index — and the failing message reaches
the caller of `convertSvgPathToPolygon` with the fixed prefix
`Failed to convert path to polygon: ` prepended, otherwise unchanged. -/
theorem tokenize_errors_shaped_and_wrapped :
    (∀ (p : List Char) (m : String), tokenizePath p = .error m →
      (∃ ns : List Char, m = "Invalid number format: \"" ++ String.mk ns ++ "\"") ∨
      (∃ ns : List Char, m = "Invalid numeric value: \"" ++ String.mk ns ++ "\"") ∨
      (∃ c k, m = unexpectedCharMsg c k ∧ p.get? k = some c)) ∧
    (∀ (arcFn : ArcCall → List Pt) (fuel : ℕ) (s : List Char)
      (opts : PolygonConversionOptions) (m : String),
      isValidSvgPath (jsTrim s) = true → tokenizePath (jsTrim s) = .error m →
      convertSvgPathToPolygon arcFn fuel s opts =
        .thrown ("Failed to convert path to polygon: " ++ m)) := by
  constructor
  · intro p m h
    rcases tokenizeAux_error_shape p 0 none m h with h1 | h1 | ⟨c, k, hm, hg⟩
    · exact Or.inl h1
    · exact Or.inr (Or.inl h1)
    · refine Or.inr (Or.inr ⟨c, k, ?_, hg⟩)
      rw [hm]
      congr 1
      omega
  · exact tokenize_error_propagates

/-- Witness for the amended C10 at the input `"M."` (tokenize error
`Invalid number format: "."`). -/
theorem tokenize_errors_shaped_and_wrapped_witness :
    ((∃ ns : List Char,
        ("Invalid number format: \".\"" : String) =
          "Invalid number format: \"" ++ String.mk ns ++ "\"") ∨
      (∃ ns : List Char,
        ("Invalid number format: \".\"" : String) =
          "Invalid numeric value: \"" ++ String.mk ns ++ "\"") ∨
      (∃ c k, ("Invalid number format: \".\"" : String) = unexpectedCharMsg c k ∧
        "M.".toList.get? k = some c)) ∧
    convertSvgPathToPolygon trivialArc 0 "M.".toList {} =
      .thrown ("Failed to convert path to polygon: " ++ "Invalid number format: \".\"") := by
  constructor
  · exact tokenize_errors_shaped_and_wrapped.1 "M.".toList "Invalid number format: \".\""
      (by decide)
  · exact tokenize_errors_shaped_and_wrapped.2 trivialArc 0 "M.".toList {}
      "Invalid number format: \".\"" (by decide) (by decide)

/-- **C10** (counterexample to the claim as stated): the malformed-number
tokenize error for `"M."` (offending literal `"."` at index 1) produces a
message containing no digit at all — so it cannot include the offending
index — and the message reaches the caller with a prefix prepended, not
verbatim. -/
theorem tokenize_error_message_lacks_index_and_is_wrapped :
    tokenizePath "M.".toList = .error "Invalid number format: \".\"" ∧
    (("Invalid number format: \".\"" : String).toList.all fun c => !c.isDigit) = true ∧
    convertSvgPathToPolygon trivialArc 0 "M.".toList {} =
      .thrown "Failed to convert path to polygon: Invalid number format: \".\"" ∧
    ("Failed to convert path to polygon: Invalid number format: \".\"" : String) ≠
      "Invalid number format: \".\"" := by
  refine ⟨by decide, by decide, by decide, by decide⟩

/-! ## Flattening lemmas (C7) -/

theorem cubicBezier_one (x0 y0 x1 y1 x2 y2 x3 y3 : ℚ) :
    cubicBezier x0 y0 x1 y1 x2 y2 x3 y3 1 = ⟨x3, y3⟩ := by
  simp only [cubicBezier, Pt.mk.injEq]
  constructor <;> ring

theorem flattenCubic_length (x0 y0 x1 y1 x2 y2 x3 y3 : ℚ) (n : ℕ) :
    (flattenCubic x0 y0 x1 y1 x2 y2 x3 y3 n).length = n := by
  simp [flattenCubic]

theorem flattenCubic_getD (x0 y0 x1 y1 x2 y2 x3 y3 : ℚ) {n k : ℕ} (hk : k < n) :
    (flattenCubic x0 y0 x1 y1 x2 y2 x3 y3 n).getD k ⟨0, 0⟩ =
      cubicBezier x0 y0 x1 y1 x2 y2 x3 y3 (((k : ℚ) + 1) / (n : ℚ)) := by
  simp [flattenCubic, List.getD, List.getElem?_map, List.getElem?_range hk]

theorem flattenCubic_last (x0 y0 x1 y1 x2 y2 x3 y3 : ℚ) {n : ℕ} (hn : 0 < n) :
    (flattenCubic x0 y0 x1 y1 x2 y2 x3 y3 n).getLast? = some ⟨x3, y3⟩ := by
  obtain ⟨m, rfl⟩ : ∃ m, n = m + 1 := ⟨n - 1, by omega⟩
  rw [flattenCubic, List.range_succ, List.map_append, List.map_singleton,
    List.getLast?_concat]
  rw [show ((m : ℚ) + 1) / ((m + 1 : ℕ) : ℚ) = 1 by
    push_cast
    rw [div_self (by positivity)]]
  rw [cubicBezier_one]

theorem jsAtan2_diag_neg {x : ℝ} (hx : x < 0) : jsAtan2 x x = -(3 * Real.pi / 4) := by
  unfold jsAtan2
  rw [if_neg (by linarith), if_pos hx, if_neg (by linarith), div_self (ne_of_lt hx),
    Real.arctan_one]
  ring

theorem jsAtan2_diag_pos {x : ℝ} (hx : 0 < x) : jsAtan2 x x = Real.pi / 4 := by
  unfold jsAtan2
  rw [if_pos hx, div_self (ne_of_gt hx), Real.arctan_one]

set_option maxRecDepth 4000 in
/-- Closed form of the arc flattener on the call issued for
`"M0,0 A 50 50 0 0 1 100 100"`: the radii are scaled by `√2` (`Λ = 2`),
the center is `(50, 50)`, the start angle `-3π/4` and the sweep `π`. -/
theorem approximateArc_demo_eq (segments : ℕ) :
    approximateArc 0 0 50 50 0 false true 100 100 segments =
      (List.range segments).map (fun i =>
        ⟨50 * Real.sqrt 2 * Real.cos (-(3 * Real.pi / 4) +
            (((i : ℝ) + 1) / (segments : ℝ)) * Real.pi) + 50,
         50 * Real.sqrt 2 * Real.sin (-(3 * Real.pi / 4) +
            (((i : ℝ) + 1) / (segments : ℝ)) * Real.pi) + 50⟩) := by
  have h2 : Real.sqrt 2 * Real.sqrt 2 = 2 := Real.mul_self_sqrt (by norm_num)
  have h2pos : 0 < Real.sqrt 2 := Real.sqrt_pos.mpr (by norm_num)
  have h5000 : 50 * Real.sqrt 2 * (50 * Real.sqrt 2) = 5000 := by nlinarith [h2]
  unfold approximateArc
  rw [if_neg (by norm_num)]
  have hneg : (-50 : ℝ) / (50 * Real.sqrt 2) < 0 :=
    div_neg_of_neg_of_pos (by norm_num) (by positivity)
  have hpos : (0 : ℝ) < 50 / (50 * Real.sqrt 2) := by positivity
  have ht1 : jsAtan2 (-50 / (50 * Real.sqrt 2)) (-50 / (50 * Real.sqrt 2)) =
      -(3 * Real.pi / 4) := jsAtan2_diag_neg hneg
  have ht2 : jsAtan2 (50 / (50 * Real.sqrt 2)) (50 / (50 * Real.sqrt 2)) =
      Real.pi / 4 := jsAtan2_diag_pos hpos
  have hlt : ¬(Real.pi / 4 < -(3 * Real.pi / 4)) := by nlinarith [Real.pi_pos]
  have hpi : Real.pi / 4 + 3 * Real.pi / 4 = Real.pi := by ring
  have hlt2 : ¬(Real.pi < 0) := by nlinarith [Real.pi_pos]
  norm_num [Real.cos_zero, Real.sin_zero, h5000, Real.sqrt_zero, max_self, ht1, ht2, hlt,
    hpi, hlt2]

theorem approximateArc_demo_length (segments : ℕ) :
    (approximateArc 0 0 50 50 0 false true 100 100 segments).length = segments := by
  rw [approximateArc_demo_eq]
  simp

theorem approximateArc_demo_last {segments : ℕ} (hseg : 0 < segments) :
    (approximateArc 0 0 50 50 0 false true 100 100 segments).getLast? =
      some ⟨100, 100⟩ := by
  have h2 : Real.sqrt 2 * Real.sqrt 2 = 2 := Real.mul_self_sqrt (by norm_num)
  obtain ⟨m, rfl⟩ : ∃ m, segments = m + 1 := ⟨segments - 1, by omega⟩
  rw [approximateArc_demo_eq, List.range_succ, List.map_append, List.map_singleton,
    List.getLast?_concat]
  have hone : ((m : ℝ) + 1) / ((m + 1 : ℕ) : ℝ) = 1 := by
    push_cast
    rw [div_self (by positivity)]
  rw [hone]
  rw [show -(3 * Real.pi / 4) + 1 * Real.pi = Real.pi / 4 by ring]
  rw [Real.cos_pi_div_four, Real.sin_pi_div_four]
  have hcoord : 50 * Real.sqrt 2 * (Real.sqrt 2 / 2) + 50 = (100 : ℝ) := by
    nlinarith [h2]
  rw [hcoord]

theorem approximateArc_demo_ne_start {segments : ℕ} (p : PtR)
    (hp : p ∈ approximateArc 0 0 50 50 0 false true 100 100 segments) :
    ¬(p.x = 0 ∧ p.y = 0) := by
  have h2 : Real.sqrt 2 * Real.sqrt 2 = 2 := Real.mul_self_sqrt (by norm_num)
  have h2pos : 0 < Real.sqrt 2 := Real.sqrt_pos.mpr (by norm_num)
  rw [approximateArc_demo_eq] at hp
  obtain ⟨i, hi, rfl⟩ := List.mem_map.mp hp
  rw [List.mem_range] at hi
  rintro ⟨hx0, hy0⟩
  simp only at hx0
  have hseg : 0 < segments := by omega
  have hsegR : (0 : ℝ) < (segments : ℝ) := Nat.cast_pos.mpr hseg
  have hs0 : 0 < ((i : ℝ) + 1) / (segments : ℝ) := div_pos (by positivity) hsegR
  have hs1 : ((i : ℝ) + 1) / (segments : ℝ) ≤ 1 := by
    rw [div_le_one hsegR]
    exact_mod_cast Nat.succ_le_of_lt hi
  have habs : |(-(3 * Real.pi / 4) + ((i : ℝ) + 1) / (segments : ℝ) * Real.pi)| <
      3 * Real.pi / 4 := by
    rw [abs_lt]
    constructor
    · nlinarith [Real.pi_pos]
    · nlinarith [Real.pi_pos]
  have hcos : Real.cos (3 * Real.pi / 4) <
      Real.cos (-(3 * Real.pi / 4) + ((i : ℝ) + 1) / (segments : ℝ) * Real.pi) := by
    rw [← Real.cos_abs (-(3 * Real.pi / 4) + ((i : ℝ) + 1) / (segments : ℝ) * Real.pi)]
    exact Real.cos_lt_cos_of_nonneg_of_le_pi (abs_nonneg _) (by nlinarith [Real.pi_pos]) habs
  have hc34 : Real.cos (3 * Real.pi / 4) = -(Real.sqrt 2 / 2) := by
    rw [show (3 : ℝ) * Real.pi / 4 = Real.pi - Real.pi / 4 by ring, Real.cos_pi_sub,
      Real.cos_pi_div_four]
  rw [hc34] at hcos
  have hkey : 0 < Real.sqrt 2 *
      (Real.cos (-(3 * Real.pi / 4) + ((i : ℝ) + 1) / (segments : ℝ) * Real.pi) +
        Real.sqrt 2 / 2) :=
    mul_pos h2pos (by linarith)
  nlinarith [hkey, h2]

/-- **C7**: the cubic flattening loop emits exactly `curveSegments` points,
sampled at `t = k/N` for `k = 1..N` — the start point (`t = 0`) is never
sampled — and its final point is exactly the curve endpoint (hence `N = 4`
and `N = 16` emit 4 and 16 points with the same final point); and on the
arc call the interpreter issues for `"M0,0 A 50 50 0 0 1 100 100"`
(start `(0,0)`, end `(100,100)`, radii 50, no rotation, sweep set), the arc
flattener emits exactly `arcSegments` points whose last is exactly
`(100, 100)` and none of which is the start point `(0, 0)`. -/
theorem flattening_emission_counts :
    (∀ (x0 y0 x1 y1 x2 y2 x3 y3 : ℚ) (n : ℕ),
      (flattenCubic x0 y0 x1 y1 x2 y2 x3 y3 n).length = n ∧
      (∀ k : ℕ, k < n →
        (flattenCubic x0 y0 x1 y1 x2 y2 x3 y3 n).getD k ⟨0, 0⟩ =
          cubicBezier x0 y0 x1 y1 x2 y2 x3 y3 (((k : ℚ) + 1) / (n : ℚ))) ∧
      (0 < n → (flattenCubic x0 y0 x1 y1 x2 y2 x3 y3 n).getLast? = some ⟨x3, y3⟩)) ∧
    (∀ segments : ℕ,
      (approximateArc 0 0 50 50 0 false true 100 100 segments).length = segments ∧
      (0 < segments →
        (approximateArc 0 0 50 50 0 false true 100 100 segments).getLast? =
          some ⟨100, 100⟩) ∧
      (∀ p ∈ approximateArc 0 0 50 50 0 false true 100 100 segments,
        ¬(p.x = 0 ∧ p.y = 0))) := by
  constructor
  · intro x0 y0 x1 y1 x2 y2 x3 y3 n
    exact ⟨flattenCubic_length x0 y0 x1 y1 x2 y2 x3 y3 n,
      fun k hk => flattenCubic_getD x0 y0 x1 y1 x2 y2 x3 y3 hk,
      fun hn => flattenCubic_last x0 y0 x1 y1 x2 y2 x3 y3 hn⟩
  · intro segments
    exact ⟨approximateArc_demo_length segments,
      fun hseg => approximateArc_demo_last hseg,
      fun p hp => approximateArc_demo_ne_start p hp⟩

/-- Witness for C7: cubic at `N = 4`, arc at the default 16 segments
(including the no-start-point part at one concrete member). -/
theorem flattening_emission_counts_witness :
    (flattenCubic 0 0 1 0 1 1 0 1 4).length = 4 ∧
    (flattenCubic 0 0 1 0 1 1 0 1 4).getD 3 ⟨0, 0⟩ =
      cubicBezier 0 0 1 0 1 1 0 1 ((((3 : ℕ) : ℚ) + 1) / ((4 : ℕ) : ℚ)) ∧
    (flattenCubic 0 0 1 0 1 1 0 1 4).getLast? = some ⟨0, 1⟩ ∧
    (approximateArc 0 0 50 50 0 false true 100 100 16).length = 16 ∧
    (approximateArc 0 0 50 50 0 false true 100 100 16).getLast? = some ⟨100, 100⟩ ∧
    ¬((⟨100, 100⟩ : PtR).x = 0 ∧ (⟨100, 100⟩ : PtR).y = 0) := by
  have hmem : (⟨100, 100⟩ : PtR) ∈ approximateArc 0 0 50 50 0 false true 100 100 1 := by
    have hl := @approximateArc_demo_last 1 one_pos
    obtain ⟨hne, heq⟩ := List.mem_getLast?_eq_getLast (l :=
      approximateArc 0 0 50 50 0 false true 100 100 1) (x := ⟨100, 100⟩)
      (by rw [Option.mem_def, hl])
    exact heq ▸ List.getLast_mem hne
  refine ⟨(flattening_emission_counts.1 0 0 1 0 1 1 0 1 4).1,
    ?_,
    (flattening_emission_counts.1 0 0 1 0 1 1 0 1 4).2.2 (by norm_num),
    (flattening_emission_counts.2 16).1,
    (flattening_emission_counts.2 16).2.1 (by norm_num),
    (flattening_emission_counts.2 1).2.2 ⟨100, 100⟩ hmem⟩
  have := (flattening_emission_counts.1 0 0 1 0 1 1 0 1 4).2.1 3 (by norm_num)
  simpa using this


end SvgClip
